import Mathlib

/-!
Verification of the URL-resolution and download-orchestration logic of
`scripts/download_weights.py`.

The Python code is shallowly embedded: pure string manipulation becomes
Lean functions on `String` / `List Char`; the filesystem and network are
oracles (`isfile : String → Bool`, a fetch oracle, a pget-batch outcome);
stdout/stderr/exit-code behaviour of `main` is modelled as a trace of
events plus an exit code.  Python string primitives (`str.strip`,
`str.split(None, 1)`, `str.lower`, `urllib.parse.urlparse(...).path`,
`urllib.parse.unquote`, `os.path.join`, `os.path.expanduser`) are modelled
for the ASCII fragment the program manipulates; `unquote` is modelled
bytewise (exact for percent-escapes of ASCII bytes; multi-byte UTF-8
sequences are out of scope for every input considered here).
-/

namespace ComfyDL

/-- Python whitespace class used by `str.strip()` / `str.split(None)`
(ASCII fragment). -/
def isSpaceChar (c : Char) : Bool :=
  c == ' ' || c == '\t' || c == '\n' || c == '\r' || c == '\x0b' || c == '\x0c'

/-- Regex word character `\w` (ASCII fragment): letters, digits, underscore. -/
def isWordChar (c : Char) : Bool :=
  c.isAlphanum || c == '_'

/-- Python `str.strip()` on a char list. -/
def pyStripL (l : List Char) : List Char :=
  ((l.dropWhile isSpaceChar).reverse.dropWhile isSpaceChar).reverse

/-- Python `str.strip()`. -/
def pyStrip (s : String) : String :=
  String.mk (pyStripL s.data)

/-- Python `str.lower()` (ASCII fragment). -/
def pyLower (s : String) : String :=
  String.mk (s.data.map Char.toLower)

/-- Python `" " in s`: the line contains a literal space character. -/
def hasSpace (s : String) : Bool :=
  s.data.any (fun c => c == ' ')

/-- Python `s.split(None, 1)` for a string that contains internal
whitespace: leading whitespace is consumed, the first maximal
whitespace-free run is the first field, the rest (with the separating
whitespace run consumed) is the second field. -/
def pySplitNone1 (l : List Char) : List Char × List Char :=
  let l1 := l.dropWhile isSpaceChar
  (l1.takeWhile (fun c => !isSpaceChar c),
   (l1.dropWhile (fun c => !isSpaceChar c)).dropWhile isSpaceChar)

/-- The fixed set of ComfyUI model subfolders (`SUBFOLDERS` in the source). -/
def SUBFOLDERS : List String :=
  ["checkpoints", "clip", "clip_vision", "controlnet", "diffusion_models",
   "embeddings", "loras", "text_encoders", "unet", "vae", "vae_approx",
   "upscale_models", "hypernetworks", "photomaker", "style_models"]

/-- The classifier rule table (`SUBFOLDER_HINTS` in the source).  Each
Python regex `\b(f1|...|fk)\b` is represented by its list of literal
alternatives (every alternative starts and ends with a word character,
so `\b` means: the preceding and following characters, when present, are
not word characters).  The single escaped dot in `ae\.safetensors` is a
literal dot. -/
def SUBFOLDER_HINTS : List (List String × String) :=
  [(["vae", "ae.safetensors"], "vae"),
   (["clip", "text_encoder", "qwen", "t5"], "text_encoders"),
   (["clip_vision"], "clip_vision"),
   (["lora", "loras"], "loras"),
   (["controlnet", "control_net"], "controlnet"),
   (["upscale", "esrgan", "realesrgan"], "upscale_models"),
   (["embedding", "embeddings", "ti_"], "embeddings"),
   (["unet"], "unet"),
   (["diffusion"], "diffusion_models")]

/-- Does `frag` occur at the head of `l`? -/
def fragAtHead : List Char → List Char → Bool
  | [], _ => true
  | _ :: _, [] => false
  | a :: as, b :: bs => a == b && fragAtHead as bs

/-- No word character here (`\b` against an optional neighbouring char). -/
def boundaryOk : Option Char → Bool
  | none => true
  | some c => !isWordChar c

/-- `re.search` of one `\b`-delimited literal alternative: `frag` occurs
somewhere in the text with non-word (or absent) characters on both sides.
`prev` is the character just before the current position. -/
def fragSearch (frag : List Char) : Option Char → List Char → Bool
  | _, [] => false
  | prev, c :: rest =>
    (boundaryOk prev && fragAtHead frag (c :: rest)
      && boundaryOk ((c :: rest).drop frag.length).head?)
    || fragSearch frag (some c) rest

/-- `re.search(r"\b(f1|...|fk)\b", s)` succeeds. -/
def hintMatches (frags : List String) (l : List Char) : Bool :=
  frags.any (fun f => fragSearch f.data none l)

/-- `infer_subfolder` from the source: lowercase the text, return the
subfolder of the first matching hint, else `"checkpoints"`. -/
def infer_subfolder (url_or_filename : String) : String :=
  let s := (pyLower url_or_filename).data
  match SUBFOLDER_HINTS.find? (fun h => hintMatches h.1 s) with
  | some h => h.2
  | none => "checkpoints"

/-- Lines 103–110 of the source, factored out of `resolve_url_dest`:
given the (already stripped) input line and the optional default
subfolder, return the url (the line with any category token split off)
and the selected subfolder.
Line 103: `subfolder = default_subfolder if default_subfolder in SUBFOLDERS else "checkpoints"`;
line 104: `if " " in url:` (a literal space character);
line 105: `url, sub = url.strip().split(None, 1)`;
lines 106–108: lowercased token kept only if it is a known subfolder;
line 109: `elif not default_subfolder or default_subfolder not in SUBFOLDERS:`
(`not default_subfolder` is true for `None` and for the empty string);
line 110: `subfolder = infer_subfolder(url)`. -/
def select_subfolder (url0 : String) (default_subfolder : Option String) :
    String × String :=
  let subfolder :=
    match default_subfolder with
    | some d => if SUBFOLDERS.contains d then d else "checkpoints"
    | none => "checkpoints"
  if hasSpace url0 then
    let p := pySplitNone1 (pyStrip url0).data
    let sub := pyLower (pyStrip (String.mk p.2))
    if SUBFOLDERS.contains sub then (String.mk p.1, sub)
    else (String.mk p.1, subfolder)
  else
    let falsyOrInvalid :=
      match default_subfolder with
      | none => true
      | some d => d == "" || !(SUBFOLDERS.contains d)
    if falsyOrInvalid then (url0, infer_subfolder url0)
    else (url0, subfolder)

/-! ### URL parsing (`urllib.parse.urlparse(url).path`) -/

/-- Characters allowed in a URL scheme (`scheme_chars` in the stdlib). -/
def isSchemeChar (c : Char) : Bool :=
  c.isAlphanum || c == '+' || c == '-' || c == '.'

/-- First char exists and is an (ASCII) letter. -/
def headAlpha : List Char → Bool
  | [] => false
  | c :: _ => c.isAlpha

/-- Scheme extraction step of `urlsplit`: if the text has a prefix of
scheme characters, starting with a letter, immediately followed by `:`,
split it off (lowercased) and return `(scheme, rest)`; otherwise the
scheme is empty and the text is unchanged. -/
def schemeSplit (l : List Char) : List Char × List Char :=
  let pre := l.takeWhile (fun c => c != ':')
  match l.drop pre.length with
  | ':' :: r =>
    if headAlpha pre && pre.all isSchemeChar then (pre.map Char.toLower, r)
    else ([], l)
  | _ => ([], l)

/-- Netloc removal step of `urlsplit`: if the (scheme-stripped) text
starts with `//`, drop the authority part, which extends to the next
`/`, `?` or `#` (that delimiter stays in the path). -/
def stripNetloc : List Char → List Char
  | '/' :: '/' :: r => r.dropWhile (fun c => c != '/' && c != '?' && c != '#')
  | l => l

/-- Suffix after the last `/` (the whole list when there is no `/`). -/
def lastSegL (l : List Char) : List Char :=
  (l.reverse.takeWhile (fun c => c != '/')).reverse

/-- The part of `l` up to and including the last `/`. -/
def upToLastSlash (l : List Char) : List Char :=
  (l.reverse.dropWhile (fun c => c != '/')).reverse

/-- `_splitparams` of the stdlib, keeping only the path part: a `;` in
the last path segment (or, for a slash-free path, the first `;`)
truncates the path. -/
def splitParamsL (l : List Char) : List Char :=
  if l.contains '/' then
    let seg := lastSegL l
    if seg.contains ';' then upToLastSlash l ++ seg.takeWhile (fun c => c != ';')
    else l
  else l.takeWhile (fun c => c != ';')

/-- Schemes for which `urlparse` splits `;params` off the path
(`uses_params` in the stdlib). -/
def USES_PARAMS : List String :=
  ["", "ftp", "hdl", "prospero", "http", "imap", "https", "imaps", "rtsp",
   "rtspu", "sip", "sips", "mms", "sftp", "tel"]

/-- `urllib.parse.urlparse(url).path`: strip scheme, strip authority,
cut at the first `#` (fragment) and then at the first `?` (query), and
for params-using schemes split `;params` off the last segment. -/
def urlparse_path (l : List Char) : List Char :=
  let sp := schemeSplit l
  let u2 := stripNetloc sp.2
  let u3 := u2.takeWhile (fun c => c != '#')
  let u4 := u3.takeWhile (fun c => c != '?')
  if USES_PARAMS.contains (String.mk sp.1) && u4.contains ';' then splitParamsL u4
  else u4

/-! ### Percent-decoding, path joining, home expansion -/

/-- Value of a hex digit, if it is one (code points: `0`–`9` are 48–57,
`A`–`F` are 65–70, `a`–`f` are 97–102). -/
def hexVal (c : Char) : Option Nat :=
  let n := c.toNat
  if 48 ≤ n ∧ n ≤ 57 then some (n - 48)
  else if 97 ≤ n ∧ n ≤ 102 then some (n - 87)
  else if 65 ≤ n ∧ n ≤ 70 then some (n - 55)
  else none

/-- `urllib.parse.unquote`, modelled bytewise: every `%XX` with two hex
digits becomes the character of that byte value, anything else is
copied.  (Exact for ASCII percent-escapes, the only ones arising here;
multi-byte UTF-8 escape sequences are not modelled.) -/
def unquoteChars : List Char → List Char
  | '%' :: a :: b :: rest =>
    match hexVal a, hexVal b with
    | some x, some y => Char.ofNat (16 * x + y) :: unquoteChars rest
    | _, _ => '%' :: unquoteChars (a :: b :: rest)
  | c :: rest => c :: unquoteChars rest
  | [] => []

/-- `os.path.join` (POSIX, two components): an absolute second component
replaces the first; otherwise they are joined with `/` unless the first
is empty or already ends in `/`. -/
def path_join (a b : String) : String :=
  if b.data.head? = some '/' then b
  else if a.data = [] ∨ a.data.getLast? = some '/' then a ++ b
  else a ++ "/" ++ b

/-- Strip trailing `/` characters (Python `s.rstrip("/")`). -/
def rstripSlashL (l : List Char) : List Char :=
  (l.reverse.dropWhile (fun c => c == '/')).reverse

/-- `os.path.expanduser`, with the value of `HOME` passed explicitly.
Only the bare-`~` form is expanded; `~user` needs a system user lookup
and is modelled as returning the path unchanged (the unknown-user
behaviour of the stdlib). -/
def expanduser (home p : String) : String :=
  if p.data.head? = some '~' then
    if p.data.tail.head? = some '/' ∨ p.data.tail = [] then
      let r := rstripSlashL home.data ++ p.data.tail
      if r = [] then "/" else String.mk r
    else p
  else p

/-! ### The entry resolver (`resolve_url_dest`) -/

/-- Lines 114–115 of the source: the URL's path component, with trailing
slashes stripped, after the last `/`. -/
def url_last_segment (url : String) : String :=
  String.mk (lastSegL (rstripSlashL (urlparse_path url.data)))

/-- Lines 114–116 of the source, factored out of `resolve_url_dest`:
the destination filename — the URL-decoded last path segment, or
`"downloaded.safetensors"` when the segment is empty. -/
def derive_name (url : String) : String :=
  let name := url_last_segment url
  if name = "" then "downloaded.safetensors" else String.mk (unquoteChars name.data)

/-- `resolve_url_dest(raw, base, overwrite, default_subfolder)` from the
source, with the filesystem (`isfile`) and `HOME` as oracles.  Returns
`(url, dest_path, is_skip)`; `url = none` means skip/ignore.  The
`os.makedirs` side effect carries no information for the claims and is
not modelled. -/
def resolve_url_dest (isfile : String → Bool) (home : String)
    (raw base : String) (overwrite : Bool) (default_subfolder : Option String) :
    Option String × Option String × Bool :=
  let url0 := pyStrip raw
  if url0 = "" ∨ url0.data.head? = some '#' then (none, none, true)
  else
    let p := select_subfolder url0 default_subfolder
    let base1 := expanduser home base
    let model_dir := path_join (path_join base1 "models") p.2
    let name := derive_name p.1
    let out_path := path_join model_dir name
    if isfile out_path && !overwrite then (none, some out_path, true)
    else (some p.1, some out_path, false)

/-- The all-false filesystem oracle (no destination file exists). -/
def noFile : String → Bool := fun _ => false

/-! ### The fallback fetcher and the orchestrator (`main`)

`main` (lines 151–250) is modelled as a pure function from its inputs
and oracles to a trace of console/filesystem events, an exit code, the
uncaught-exception state, and the number of entries that ended in a
transfer-error outcome.  The precondition that the store root exists
(lines 183–185 abort with exit 1 otherwise) is assumed.  The filesystem
oracle is fixed for the run. -/

/-- An observable event of a run: a stdout line, a stderr line, or the
removal of the temporary pget manifest file. -/
inductive Ev
  | out (s : String)
  | err (s : String)
  | unlinkManifest
deriving DecidableEq

/-- Outcome of the external pget batch call (`download_with_pget`):
zero exit status, nonzero exit status, or a raised exception. -/
inductive PgetOutcome
  | success
  | failure
  | exc (msg : String)
deriving DecidableEq

/-- Environment oracles for a run: the filesystem `isfile` predicate,
the pget binary (with the outcome its batch call would have), the
network fetch outcome per (url, dest), and `HOME`. -/
structure Oracles where
  isfile : String → Bool
  pget_bin : Option PgetOutcome
  fetch : String → String → Except String Unit
  home : String

/-- `urllib.parse.unwrap`: strip whitespace; strip one pair of enclosing
angle brackets and strip again; strip a literal `URL:` front piece and
strip again. -/
def pyUnwrap (l : List Char) : List Char :=
  let u1 := pyStripL l
  let u2 :=
    if u1.head? = some '<' ∧ u1.getLast? = some '>' then
      pyStripL (u1.drop 1).dropLast
    else u1
  if u2.take 4 = ['U', 'R', 'L', ':'] then pyStripL (u2.drop 4) else u2

/-- The path part of `urllib.parse._splittag`
(`url.rpartition('#')`): everything before the *last* `#`, or the whole
text when there is no `#`. -/
def splitTag (l : List Char) : List Char :=
  if l.contains '#' then ((l.reverse.dropWhile (fun c => c != '#')).tail).reverse
  else l

/-- Does the url have a scheme in the sense of
`urllib.request.Request.__init__` (which raises
`ValueError("unknown url type: ...")` otherwise)?  The constructor
first preprocesses the url — `unwrap` (whitespace/angle-bracket
trimming and `URL:` front-piece removal) and splitting the fragment off
at the last `#` — and then requires the remainder to match
`([^/:]+):(.*)`: a nonempty run of characters other than `/` and `:`,
followed by `:`. -/
def hasUrlScheme (url : String) : Bool :=
  let u := splitTag (pyUnwrap url.data)
  let pre := u.takeWhile (fun c => c != '/' && c != ':')
  pre != [] && (u.drop pre.length).head? == some ':'

/-- `download_one_fallback(url, dest_path, overwrite)` (lines 131–148).
`Except.ok (status, path_or_message)` is the function's return value;
`Except.error msg` models the exception that the `Request` constructor
— which sits *outside* the `try` block — raises for a url with no
scheme after its preprocessing (`hasUrlScheme = false`) and that
propagates out of the function. -/
def download_one_fallback (o : Oracles) (url dest_path : String)
    (overwrite : Bool) : Except String (String × String) :=
  if o.isfile dest_path && !overwrite then Except.ok ("skipped", dest_path)
  else if !hasUrlScheme url then Except.error ("unknown url type: " ++ url)
  else
    match o.fetch url dest_path with
    | Except.ok _ => Except.ok ("ok", dest_path)
    | Except.error e => Except.ok ("error", e)

/-- Result of the fallback download loop (lines 232–243): the events it
printed and its `ok`/`skipped`/`err` counters, either run to completion
(`done`) or aborted by an uncaught exception (`raised`). -/
inductive LoopRes
  | done (evs : List Ev) (ok sk er : Nat)
  | raised (evs : List Ev) (ok sk er : Nat) (msg : String)
deriving DecidableEq

/-- The fallback download loop, lines 232–243 of the source: one
`download_one_fallback` per entry, printing `dest` / `skipped …` /
`error …` and counting outcomes; an uncaught exception aborts the loop. -/
def fallback_loop (o : Oracles) (ow : Bool) : List (String × String) → LoopRes
  | [] => .done [] 0 0 0
  | (url, dest) :: rest =>
    match download_one_fallback o url dest ow with
    | Except.error m => .raised [] 0 0 0 m
    | Except.ok (st, pm) =>
      if st = "ok" then
        match fallback_loop o ow rest with
        | .done evs k s e => .done (Ev.out dest :: evs) (k + 1) s e
        | .raised evs k s e m => .raised (Ev.out dest :: evs) (k + 1) s e m
      else if st = "skipped" then
        match fallback_loop o ow rest with
        | .done evs k s e => .done (Ev.out ("skipped " ++ pm) :: evs) k (s + 1) e
        | .raised evs k s e m => .raised (Ev.out ("skipped " ++ pm) :: evs) k (s + 1) e m
      else
        match fallback_loop o ow rest with
        | .done evs k s e => .done (Ev.err ("error " ++ pm) :: evs) k s (e + 1)
        | .raised evs k s e m => .raised (Ev.err ("error " ++ pm) :: evs) k s (e + 1) m

/-- Observable result of a run: event trace, process exit status, the
uncaught exception (if one terminated the run), and the number of
entries that ended in a transfer-error outcome. -/
structure RunOut where
  events : List Ev
  exit : Nat
  raised : Option String
  er : Nat
deriving DecidableEq

/-- Lines 231–249 of the source: the fallback phase.  After the loop,
the pre-computed skip-existing paths are printed (lines 244–246); if any
entry errored the process exits 1 (line 248) *before* the summary line
of line 249 is printed. -/
def fallback_phase (o : Oracles) (entries : List (String × String))
    (skipped_paths : List String) (ow : Bool) : RunOut :=
  match fallback_loop o ow entries with
  | .raised evs _ _ e m => ⟨evs, 1, some m, e⟩
  | .done evs k s e =>
    let evs2 := evs ++ skipped_paths.map (fun p => Ev.out ("skipped " ++ p))
    let s2 := s + skipped_paths.length
    if e ≠ 0 then ⟨evs2, 1, none, e⟩
    else ⟨evs2 ++ [Ev.err ("Done: " ++ toString k ++ " downloaded, "
            ++ toString s2 ++ " skipped.")], 0, none, e⟩

/-- Lines 193–202 of the source: resolve every raw input line,
partitioning into proceed-entries and skip-existing paths (a skip with a
non-empty destination goes to `skipped_paths`; everything else with
`url = None` is dropped). -/
def resolve_all (o : Oracles) (base : String) (ow : Bool)
    (dflt : Option String) (urls : List String) :
    List (String × String) × List String :=
  urls.foldl
    (fun acc raw =>
      match resolve_url_dest o.isfile o.home raw base ow dflt with
      | (none, some d, true) =>
        if d ≠ "" then (acc.1, acc.2 ++ [d]) else acc
      | (none, _, _) => acc
      | (some u, d, _) => (acc.1 ++ [(u, d.getD "")], acc.2))
    ([], [])

/-- Prefix a run's event trace with earlier events. -/
def prependEvents (pre : List Ev) (r : RunOut) : RunOut :=
  ⟨pre ++ r.events, r.exit, r.raised, r.er⟩

/-- Lines 182–250 of the source (given that the store root exists):
expand the base, resolve all lines, and drive the two-tier download.
With no proceed-entries, print the skips and a zero summary (lines
204–208).  Otherwise, when pget is permitted and available, write the
manifest and run the batch (lines 213–229): on success print every
destination and a pget summary — the skip-existing paths are *not*
printed on this path — and on a nonzero status or an exception fall
back; the manifest is unlinked in the `finally` on every path.  The
fallback phase is lines 231–249. -/
def runMain (o : Oracles) (urls : List String) (base : String) (ow : Bool)
    (dflt : Option String) (no_pget : Bool) : RunOut :=
  let base1 := expanduser o.home base
  let r := resolve_all o base1 ow dflt urls
  match r.1 with
  | [] =>
    ⟨r.2.map (fun p => Ev.out ("skipped " ++ p))
       ++ [Ev.err ("Done: 0 downloaded, " ++ toString r.2.length ++ " skipped.")],
     0, none, 0⟩
  | e :: es =>
    let entries := e :: es
    let pget_bin := if no_pget then none else o.pget_bin
    match pget_bin with
    | some PgetOutcome.success =>
      ⟨entries.map (fun x => Ev.out x.2)
         ++ [Ev.err ("Done: " ++ toString entries.length ++ " downloaded (pget)."),
             Ev.unlinkManifest],
       0, none, 0⟩
    | some PgetOutcome.failure =>
      prependEvents [Ev.unlinkManifest] (fallback_phase o entries r.2 ow)
    | some (PgetOutcome.exc m) =>
      prependEvents
        [Ev.err ("pget failed (" ++ m ++ "); falling back to built-in download."),
         Ev.unlinkManifest]
        (fallback_phase o entries r.2 ow)
    | none => fallback_phase o entries r.2 ow

/-- Oracle: nothing on disk, pget present and succeeding, fetches succeed. -/
def oPgetOk : Oracles :=
  ⟨fun p => p = "/store/models/checkpoints/a.safetensors", some PgetOutcome.success,
   fun _ _ => Except.ok (), "/root"⟩

/-- Oracle: nothing on disk, no pget, every fetch fails with "boom". -/
def oFetchErr : Oracles :=
  ⟨fun _ => false, none, fun _ _ => Except.error "boom", "/root"⟩

/-- Oracle: nothing on disk, no pget, fetches succeed. -/
def oPlain : Oracles :=
  ⟨fun _ => false, none, fun _ _ => Except.ok (), "/root"⟩

/-! ### Auxiliary definitions for the claim statements -/

/-- Oracle: every destination file already exists; no pget. -/
def oAllFiles : Oracles :=
  ⟨fun _ => true, none, fun _ _ => Except.ok (), "/root"⟩

/-- `p` is a leading piece of `s`. -/
def strStartsWith (p s : String) : Bool :=
  fragAtHead p.data s.data

/-- Is this event a terminal summary line (a stderr line starting with
`Done`)? -/
def isSummaryEv : Ev → Bool
  | Ev.err s => fragAtHead "Done".data s.data
  | _ => false

/-- The trace contains a terminal summary line. -/
def hasSummary (evs : List Ev) : Bool :=
  evs.any isSummaryEv

/-- The events a loop result printed. -/
def LoopRes.evs : LoopRes → List Ev
  | .done evs _ _ _ => evs
  | .raised evs _ _ _ _ => evs

/-- The uncaught exception of a loop result, if any. -/
def LoopRes.raisedMsg : LoopRes → Option String
  | .done _ _ _ _ => none
  | .raised _ _ _ _ m => some m

/-- The category-selection rule as the amended claim C1 states it,
written from that wording (for the already-trimmed line): (a) if the
line contains a space character, the lowercased, stripped text after the
first whitespace run is used when it is a known subfolder, and otherwise
the valid default (else the baseline); (b) with no space, a valid
default is used; (c) the classifier runs only when the line has no space
and no valid default. -/
def spec_category_selection (line : String) (dflt : Option String) : String :=
  if hasSpace line then
    let tok := pyLower (pyStrip (String.mk (pySplitNone1 line.data).2))
    if SUBFOLDERS.contains tok then tok
    else
      match dflt with
      | some d => if SUBFOLDERS.contains d then d else "checkpoints"
      | none => "checkpoints"
  else
    match dflt with
    | some d => if SUBFOLDERS.contains d then d else infer_subfolder line
    | none => infer_subfolder line

/-! ### Shared helper lemmas -/

theorem strData (a b : String) : (a ++ b).data = a.data ++ b.data := by
  cases a; cases b; rfl

theorem strMkData (s : String) : String.mk s.data = s := by
  cases s; rfl

theorem strExt {a b : String} (h : a.data = b.data) : a = b := by
  rw [← strMkData a, ← strMkData b]
  exact congrArg String.mk h

/-! ### Claim C1 -/

/-- Claim C1, counterexample: for the line
`"https://example.com/x/lora.safetensors nope"` (whitespace present,
trailing token not a valid category) with no default, the classifier
would give `loras`, but `resolve` selects `checkpoints` — the classifier
is never consulted for a line that contains a space. -/
theorem c1_counterexample :
    (select_subfolder "https://example.com/x/lora.safetensors nope" none).2
      = "checkpoints"
    ∧ infer_subfolder "https://example.com/x/lora.safetensors" = "loras"
    ∧ (resolve_url_dest noFile "/root"
        "https://example.com/x/lora.safetensors nope" "/store" false none).2.1
      = some "/store/models/checkpoints/lora.safetensors"
    ∧ ("checkpoints" : String) ≠ "loras" := by
  refine ⟨by decide, by decide, by decide, by decide⟩

/-- Claim C1 (amended): for every trimmed input line, the category is
selected as follows — (a) if the line contains a space character, the
text after the first whitespace run (stripped, lowercased) is used when
it is a known category; otherwise the valid default, else the baseline
`checkpoints` (the classifier is *not* consulted); (b) with no space, a
supplied valid default is used; (c) the classifier is invoked on the URL
text only when the line contains no space and no valid default. -/
theorem c1_amended_holds (line : String) (dflt : Option String)
    (h : pyStrip line = line) :
    (select_subfolder line dflt).2 = spec_category_selection line dflt := by
  unfold select_subfolder spec_category_selection
  rw [h]
  by_cases hs : hasSpace line
  · simp only [hs, if_true]
    cases hc : SUBFOLDERS.contains (pyLower (pyStrip (String.mk (pySplitNone1 line.data).2)))
    · cases dflt with
      | none => simp [hc]
      | some d => cases hd : SUBFOLDERS.contains d <;> simp [hc, hd]
    · simp [hc]
  · simp only [hs, if_false, Bool.false_eq_true]
    cases dflt with
    | none => simp
    | some d =>
      by_cases hd : d ∈ SUBFOLDERS
      · have hne : d ≠ "" := by
          intro he; rw [he] at hd; exact absurd hd (by decide)
        simp [hd, hne]
      · simp [hd]

/-- Claim C1 amended, witness: the line
`"https://example.com/x/lora.safetensors nope"` is trimmed, and the
code's selection agrees with the amended rule on it. -/
theorem c1_amended_witness :
    pyStrip "https://example.com/x/lora.safetensors nope"
      = "https://example.com/x/lora.safetensors nope"
    ∧ (select_subfolder "https://example.com/x/lora.safetensors nope" none).2
      = spec_category_selection "https://example.com/x/lora.safetensors nope" none :=
  ⟨by decide, c1_amended_holds "https://example.com/x/lora.safetensors nope" none (by decide)⟩

/-! ### Claim C2 -/

/-- Claim C2, counterexample: a run with one skip-existing entry
(`a.safetensors` already on disk) and one proceed-entry, in which the
pget batch succeeds.  The skip-existing entry is computed during
resolution, but no `skipped …` line appears in the final report. -/
theorem c2_counterexample :
    (resolve_all oPgetOk "/store" false none
        ["https://e/a.safetensors", "https://e/b.safetensors"]).2
      = ["/store/models/checkpoints/a.safetensors"]
    ∧ Ev.out "skipped /store/models/checkpoints/a.safetensors"
        ∉ (runMain oPgetOk ["https://e/a.safetensors", "https://e/b.safetensors"]
            "/store" false none false).events := by
  refine ⟨by decide, by decide⟩

/-! ### Claim C3 -/

/-- Claim C3, counterexample: a run that reaches the download phase
(one proceed-entry, fallback path) in which the entry errors: the
process exits 1 and no terminal summary line is printed. -/
theorem c3_counterexample :
    runMain oFetchErr ["https://e/a.safetensors"] "/store" false none true
      = ⟨[Ev.err "error boom"], 1, none, 1⟩
    ∧ hasSummary (runMain oFetchErr ["https://e/a.safetensors"]
        "/store" false none true).events = false := by
  refine ⟨by decide, by decide⟩

/-! ### Claim C4 -/

/-- Claim C4, counterexample: the input line `"notaurl"` (no scheme)
reaches the fallback fetcher, whose request constructor raises outside
the `try` block; the process exits nonzero although no entry ended in a
transfer-error outcome. -/
theorem c4_counterexample :
    (runMain oPlain ["notaurl"] "/store" false none true).exit ≠ 0
    ∧ (runMain oPlain ["notaurl"] "/store" false none true).er = 0
    ∧ (runMain oPlain ["notaurl"] "/store" false none true).raised
      = some "unknown url type: notaurl" := by
  refine ⟨by decide, by decide, by decide⟩

/-! ### Claim C5 -/

/-- Claim C5, counterexample: the classifier assigns
`"https://example.com/x/vae_ft.safetensors"` the category
`checkpoints`, not `vae` — the regex `\bvae\b` does not match inside
`vae_ft` because the underscore is a word character. -/
theorem c5_counterexample :
    infer_subfolder "https://example.com/x/vae_ft.safetensors" = "checkpoints"
    ∧ ("checkpoints" : String) ≠ "vae"
    ∧ (resolve_url_dest noFile "/root" "https://example.com/x/vae_ft.safetensors"
        "/store" false none).2.1
      = some "/store/models/checkpoints/vae_ft.safetensors" := by
  refine ⟨by decide, by decide, by decide⟩

/-- Claim C5 (amended): the input line
`"https://example.com/x/vae_ft.safetensors"`, with no explicit category
token and no default, is assigned the baseline category `checkpoints`:
no classifier pattern matches the URL (in particular `\bvae\b` is
blocked by the word-character underscore that follows `vae`). -/
theorem c5_amended_holds :
    resolve_url_dest noFile "/root" "https://example.com/x/vae_ft.safetensors"
        "/store" false none
      = (some "https://example.com/x/vae_ft.safetensors",
         some "/store/models/checkpoints/vae_ft.safetensors", false)
    ∧ infer_subfolder "https://example.com/x/vae_ft.safetensors" = "checkpoints" := by
  refine ⟨by decide, by decide⟩

/-! ### Claim C6 -/

/-- Claim C6, counterexample: for a URL whose last path segment is
`%20weights.safetensors`, the destination filename is
`" weights.safetensors"` — the percent-encoded space is decoded to a
literal leading space — and not `"weights.safetensors"`. -/
theorem c6_counterexample :
    derive_name "https://example.com/%20weights.safetensors" = " weights.safetensors"
    ∧ (" weights.safetensors" : String) ≠ "weights.safetensors"
    ∧ (resolve_url_dest noFile "/root" "https://example.com/%20weights.safetensors"
        "/store" false none).2.1
      = some "/store/models/checkpoints/ weights.safetensors" := by
  refine ⟨by decide, by decide, by decide⟩

/-- Claim C6 (amended): every URL whose last path segment is
`%20weights.safetensors` resolves to the destination filename
`" weights.safetensors"`: the percent-encoded space is decoded and kept
at the front of the filename. -/
theorem c6_amended_holds (url : String)
    (h : url_last_segment url = "%20weights.safetensors") :
    derive_name url = " weights.safetensors" := by
  simp only [derive_name]
  rw [h]
  decide

/-- Claim C6 amended, witness at
`https://example.com/%20weights.safetensors`. -/
theorem c6_amended_witness :
    url_last_segment "https://example.com/%20weights.safetensors"
      = "%20weights.safetensors"
    ∧ derive_name "https://example.com/%20weights.safetensors"
      = " weights.safetensors" :=
  ⟨by decide, c6_amended_holds "https://example.com/%20weights.safetensors" (by decide)⟩

/-! ### Claim C7 -/

/-- Claim C7, counterexample: the URL
`https://example.com/%2Fetc%2Fpasswd` has a percent-encoded slash in its
last path segment; the decoded filename `/etc/passwd` is absolute, so
`os.path.join` discards the category directory and the destination does
not lie under the store root at all. -/
theorem c7_counterexample :
    (resolve_url_dest noFile "/root" "https://example.com/%2Fetc%2Fpasswd"
        "/store" false none).2.1
      = some "/etc/passwd"
    ∧ strStartsWith "/store" "/etc/passwd" = false := by
  refine ⟨by decide, by decide⟩

/-! ### Claim C8 -/

/-- Claim C8, counterexample: for the malformed url `"notaurl"` the
request constructor — outside the `try` block — raises, the exception
propagates out of `download_one_fallback`, and the run terminates
without processing the remaining entry `https://e/b.safetensors`. -/
theorem c8_counterexample :
    download_one_fallback oPlain "notaurl" "/store/models/checkpoints/notaurl" false
      = Except.error "unknown url type: notaurl"
    ∧ (runMain oPlain ["notaurl", "https://e/b.safetensors"]
        "/store" false none true).raised = some "unknown url type: notaurl"
    ∧ Ev.out "/store/models/checkpoints/b.safetensors"
        ∉ (runMain oPlain ["notaurl", "https://e/b.safetensors"]
            "/store" false none true).events := by
  refine ⟨by rfl, by decide, by decide⟩

/-! ### Lemmas about the fallback loop and phase -/

theorem download_ok (o : Oracles) (url dest : String) (ow : Bool)
    (hs : hasUrlScheme url = true) :
    ∃ st pm, download_one_fallback o url dest ow = Except.ok (st, pm) := by
  unfold download_one_fallback
  rw [hs]
  by_cases h1 : (o.isfile dest && !ow) = true
  · rw [if_pos h1]; exact ⟨_, _, rfl⟩
  · rw [if_neg h1]
    simp only [Bool.not_true, Bool.false_eq_true, if_false]
    cases o.fetch url dest with
    | ok _ => exact ⟨_, _, rfl⟩
    | error e => exact ⟨_, _, rfl⟩

theorem loop_cons_raisedMsg (o : Oracles) (ow : Bool) (url dest : String)
    (tl : List (String × String)) (st pm : String)
    (hdl : download_one_fallback o url dest ow = Except.ok (st, pm)) :
    (fallback_loop o ow ((url, dest) :: tl)).raisedMsg
      = (fallback_loop o ow tl).raisedMsg := by
  simp only [fallback_loop]
  rw [hdl]
  by_cases h1 : st = "ok"
  · cases hfl : fallback_loop o ow tl <;> simp [h1, hfl, LoopRes.raisedMsg]
  · by_cases h2 : st = "skipped"
    · cases hfl : fallback_loop o ow tl <;> simp [h1, h2, hfl, LoopRes.raisedMsg]
    · cases hfl : fallback_loop o ow tl <;> simp [h1, h2, hfl, LoopRes.raisedMsg]

theorem loop_no_raise (o : Oracles) (ow : Bool) :
    ∀ entries : List (String × String),
      (∀ e ∈ entries, hasUrlScheme e.1 = true) →
      (fallback_loop o ow entries).raisedMsg = none := by
  intro entries
  induction entries with
  | nil => intro _; rfl
  | cons hd tl ih =>
    intro h
    have hs : hasUrlScheme hd.1 = true := h hd (by simp)
    have htl := ih (fun e he => h e (by simp [he]))
    obtain ⟨st, pm, hdl⟩ := download_ok o hd.1 hd.2 ow hs
    obtain ⟨url, dest⟩ := hd
    rw [loop_cons_raisedMsg o ow url dest tl st pm hdl]
    exact htl

theorem fallback_phase_raised (o : Oracles) (entries : List (String × String))
    (sp : List String) (ow : Bool) :
    (fallback_phase o entries sp ow).raised
      = (fallback_loop o ow entries).raisedMsg := by
  unfold fallback_phase
  cases fallback_loop o ow entries with
  | raised evs k s e m => rfl
  | done evs k s e => simp only [LoopRes.raisedMsg]; split <;> rfl

theorem fallback_exit_iff (o : Oracles) (entries : List (String × String))
    (sp : List String) (ow : Bool)
    (h : (fallback_phase o entries sp ow).raised = none) :
    (fallback_phase o entries sp ow).exit ≠ 0
      ↔ (fallback_phase o entries sp ow).er ≠ 0 := by
  unfold fallback_phase at h ⊢
  cases hfl : fallback_loop o ow entries with
  | raised evs k s e m => rw [hfl] at h; simp at h
  | done evs k s e =>
    by_cases he : e ≠ 0
    · simp [he]
    · simp [he]

theorem fallback_phase_skipped_mem (o : Oracles) (entries : List (String × String))
    (sp : List String) (ow : Bool)
    (h : (fallback_phase o entries sp ow).raised = none) :
    ∀ p ∈ sp, Ev.out ("skipped " ++ p) ∈ (fallback_phase o entries sp ow).events := by
  intro p hp
  unfold fallback_phase at h ⊢
  cases hfl : fallback_loop o ow entries with
  | raised evs k s e m => rw [hfl] at h; simp at h
  | done evs k s e =>
    by_cases he : e ≠ 0
    · simp [he]
      exact Or.inr ⟨p, hp, rfl⟩
    · simp [he]
      exact Or.inr ⟨p, hp, rfl⟩

/-! ### Claim C9 -/

/-- Claim C9 (confirmed): whenever the external-fetcher batch path is
entered (pget permitted, binary available, proceed-entries nonempty),
the temporary manifest file is removed on every exit path — batch
success, nonzero batch status, and raised exception alike. -/
theorem c9_manifest_cleanup (o : Oracles) (urls : List String) (base : String)
    (ow : Bool) (dflt : Option String) (pc : PgetOutcome)
    (hp : o.pget_bin = some pc)
    (hent : (resolve_all o (expanduser o.home base) ow dflt urls).1 ≠ []) :
    Ev.unlinkManifest ∈ (runMain o urls base ow dflt false).events := by
  simp only [runMain]
  cases hE : (resolve_all o (expanduser o.home base) ow dflt urls).1 with
  | nil => exact absurd hE hent
  | cons e es =>
    simp only [Bool.false_eq_true, if_false, hp]
    cases pc <;> simp [prependEvents, List.mem_append]

/-- Claim C9, witness: a concrete run in which pget is available, used,
and succeeds; the manifest-unlink event is in the trace. -/
theorem c9_witness :
    Ev.unlinkManifest
      ∈ (runMain oPgetOk ["https://e/b.safetensors"] "/store" false none false).events :=
  c9_manifest_cleanup oPgetOk ["https://e/b.safetensors"] "/store" false none
    PgetOutcome.success (by decide) (by decide)

/-! ### Claim C8 (amended) -/

/-- Claim C8 (amended): for every batch of entries whose URLs are all
accepted by the request constructor — after its `unwrap` preprocessing
and fragment removal the text has a scheme, a nonempty `/`- and
`:`-free run followed by `:` (`hasUrlScheme`) — the fallback phase
never terminates on an uncaught exception: every transport error is
caught and surfaced as an `error` outcome and the loop continues
through all remaining entries.  A url the constructor rejects raises
outside the `try` block and aborts the run. -/
theorem c8_amended_holds (o : Oracles) (entries : List (String × String))
    (sp : List String) (ow : Bool)
    (h : ∀ e ∈ entries, hasUrlScheme e.1 = true) :
    (fallback_phase o entries sp ow).raised = none := by
  rw [fallback_phase_raised]
  exact loop_no_raise o ow entries h

/-- Claim C8 amended, witness: a two-entry batch in which every fetch
fails with a transport error still runs to completion. -/
theorem c8_amended_witness :
    (∀ e ∈ [("https://e/a.safetensors", "/store/models/checkpoints/a.safetensors"),
            ("https://e/b.safetensors", "/store/models/checkpoints/b.safetensors")],
        hasUrlScheme (Prod.fst e) = true)
    ∧ (fallback_phase oFetchErr
        [("https://e/a.safetensors", "/store/models/checkpoints/a.safetensors"),
         ("https://e/b.safetensors", "/store/models/checkpoints/b.safetensors")]
        [] false).raised = none :=
  ⟨by decide,
   c8_amended_holds oFetchErr
     [("https://e/a.safetensors", "/store/models/checkpoints/a.safetensors"),
      ("https://e/b.safetensors", "/store/models/checkpoints/b.safetensors")]
     [] false (by decide)⟩

/-! ### Claim C4 (amended) -/

/-- Claim C4 (amended): given that the store root exists and the run is
not terminated by an uncaught exception, the process exit status is
nonzero if and only if at least one entry ended in a transfer error. -/
theorem c4_amended_holds (o : Oracles) (urls : List String) (base : String)
    (ow : Bool) (dflt : Option String) (np : Bool)
    (h : (runMain o urls base ow dflt np).raised = none) :
    (runMain o urls base ow dflt np).exit ≠ 0
      ↔ (runMain o urls base ow dflt np).er ≠ 0 := by
  simp only [runMain] at h ⊢
  cases hE : (resolve_all o (expanduser o.home base) ow dflt urls).1 with
  | nil => simp
  | cons e es =>
    rw [hE] at h
    cases hpb : (if np then none else o.pget_bin) with
    | none =>
      rw [hpb] at h
      exact fallback_exit_iff o (e :: es) _ ow h
    | some pc =>
      rw [hpb] at h
      cases pc with
      | success => simp
      | failure =>
        simp only [prependEvents] at h ⊢
        exact fallback_exit_iff o (e :: es) _ ow h
      | exc m =>
        simp only [prependEvents] at h ⊢
        exact fallback_exit_iff o (e :: es) _ ow h

/-- Claim C4 amended, witness: a fallback run with one erroring entry —
no uncaught exception, exit 1, one transfer error. -/
theorem c4_amended_witness :
    (runMain oFetchErr ["https://e/a.safetensors"] "/store" false none true).raised = none
    ∧ ((runMain oFetchErr ["https://e/a.safetensors"] "/store" false none true).exit ≠ 0
        ↔ (runMain oFetchErr ["https://e/a.safetensors"] "/store" false none true).er ≠ 0) :=
  ⟨by decide,
   c4_amended_holds oFetchErr ["https://e/a.safetensors"] "/store" false none true (by decide)⟩

/-! ### Claim C2 (amended) -/

/-- Claim C2 (amended): in every run that does not take the
successful-pget path — no proceed-entries at all, or pget disabled,
absent, failing or raising — and that is not cut short by an uncaught
exception, every skip-existing entry computed during resolution appears
in the final report as a `skipped <path>` line. -/
theorem c2_amended_holds (o : Oracles) (urls : List String) (base : String)
    (ow : Bool) (dflt : Option String) (np : Bool)
    (hnr : (runMain o urls base ow dflt np).raised = none)
    (hpg : (resolve_all o (expanduser o.home base) ow dflt urls).1 = []
         ∨ (if np then none else o.pget_bin) ≠ some PgetOutcome.success) :
    ∀ p ∈ (resolve_all o (expanduser o.home base) ow dflt urls).2,
      Ev.out ("skipped " ++ p) ∈ (runMain o urls base ow dflt np).events := by
  intro p hp
  simp only [runMain] at hnr ⊢
  cases hE : (resolve_all o (expanduser o.home base) ow dflt urls).1 with
  | nil =>
    simp only [List.mem_append, List.mem_map]
    exact Or.inl ⟨p, hp, rfl⟩
  | cons e es =>
    rw [hE] at hnr
    have hpg2 : (if np then none else o.pget_bin) ≠ some PgetOutcome.success := by
      rcases hpg with h1 | h2
      · rw [h1] at hE; cases hE
      · exact h2
    cases hpb : (if np then none else o.pget_bin) with
    | none =>
      rw [hpb] at hnr
      exact fallback_phase_skipped_mem o (e :: es) _ ow hnr p hp
    | some pc =>
      rw [hpb] at hnr hpg2
      cases pc with
      | success => exact absurd rfl hpg2
      | failure =>
        simp only [prependEvents, List.mem_append] at hnr ⊢
        exact Or.inr (fallback_phase_skipped_mem o (e :: es) _ ow hnr p hp)
      | exc m =>
        simp only [prependEvents, List.mem_append] at hnr ⊢
        exact Or.inr (fallback_phase_skipped_mem o (e :: es) _ ow hnr p hp)

/-- Claim C2 amended, witness: a run whose single entry is already on
disk (no proceed-entries): its `skipped` line is in the report. -/
theorem c2_amended_witness :
    Ev.out "skipped /store/models/checkpoints/a.safetensors"
      ∈ (runMain oAllFiles ["https://e/a.safetensors"] "/store" false none false).events :=
  c2_amended_holds oAllFiles ["https://e/a.safetensors"] "/store" false none false
    (by decide) (Or.inl (by decide)) "/store/models/checkpoints/a.safetensors" (by decide)

/-! ### Summary-line lemmas for claim C3 -/

theorem yesDone (rest : List Char) :
    fragAtHead "Done".data ('D' :: 'o' :: 'n' :: 'e' :: rest) = true := rfl

theorem noDone (c : Char) (rest : List Char) (h : ('D' == c) = false) :
    fragAtHead "Done".data (c :: rest) = false := by
  show (('D' == c) && fragAtHead ['o', 'n', 'e'] rest) = false
  rw [h]
  rfl

theorem outNoSummary (s : String) : isSummaryEv (Ev.out s) = false := rfl

theorem unlinkNoSummary : isSummaryEv Ev.unlinkManifest = false := rfl

theorem errNoSummary (pm : String) :
    isSummaryEv (Ev.err ("error " ++ pm)) = false := by
  show fragAtHead "Done".data ("error " ++ pm).data = false
  rw [strData]
  exact noDone 'e' _ (by decide)

theorem pgetFailNoSummary (m : String) :
    isSummaryEv
      (Ev.err (("pget failed (" ++ m) ++ "); falling back to built-in download."))
      = false := by
  show fragAtHead "Done".data
    ((("pget failed (" ++ m) ++ "); falling back to built-in download.").data) = false
  rw [strData, strData]
  exact noDone 'p' _ (by decide)

theorem doneSummary1 (a b : String) :
    isSummaryEv (Ev.err (("Done: " ++ a) ++ b)) = true := by
  show fragAtHead "Done".data ((("Done: " ++ a) ++ b).data) = true
  rw [strData, strData]
  exact yesDone _

theorem doneSummary2 (a b : String) :
    isSummaryEv (Ev.err (("Done: 0 downloaded, " ++ a) ++ b)) = true := by
  show fragAtHead "Done".data ((("Done: 0 downloaded, " ++ a) ++ b).data) = true
  rw [strData, strData]
  exact yesDone _

theorem doneSummary3 (a b c d : String) :
    isSummaryEv (Ev.err (((("Done: " ++ a) ++ b) ++ c) ++ d)) = true := by
  show fragAtHead "Done".data
    (((((("Done: " ++ a) ++ b) ++ c) ++ d)).data) = true
  rw [strData, strData, strData, strData]
  exact yesDone _

theorem hasSummary_append (l1 l2 : List Ev) :
    hasSummary (l1 ++ l2) = (hasSummary l1 || hasSummary l2) := by
  simp [hasSummary]

theorem mapSkippedNoSummary (sp : List String) :
    hasSummary (sp.map (fun p => Ev.out ("skipped " ++ p))) = false := by
  simp [hasSummary, isSummaryEv]

theorem loop_cons_evs (o : Oracles) (ow : Bool) (url dest : String)
    (tl : List (String × String)) (st pm : String)
    (hdl : download_one_fallback o url dest ow = Except.ok (st, pm)) :
    ∃ ev, (fallback_loop o ow ((url, dest) :: tl)).evs
        = ev :: (fallback_loop o ow tl).evs
      ∧ isSummaryEv ev = false := by
  simp only [fallback_loop]
  rw [hdl]
  by_cases h1 : st = "ok"
  · refine ⟨Ev.out dest, ?_, rfl⟩
    cases hfl : fallback_loop o ow tl <;> simp [h1, hfl, LoopRes.evs]
  · by_cases h2 : st = "skipped"
    · refine ⟨Ev.out ("skipped " ++ pm), ?_, rfl⟩
      cases hfl : fallback_loop o ow tl <;> simp [h1, h2, hfl, LoopRes.evs]
    · refine ⟨Ev.err ("error " ++ pm), ?_, errNoSummary pm⟩
      cases hfl : fallback_loop o ow tl <;> simp [h1, h2, hfl, LoopRes.evs]

theorem loop_evs_no_summary (o : Oracles) (ow : Bool) :
    ∀ entries, hasSummary (fallback_loop o ow entries).evs = false := by
  intro entries
  induction entries with
  | nil => rfl
  | cons hd tl ih =>
    obtain ⟨url, dest⟩ := hd
    cases hdl : download_one_fallback o url dest ow with
    | error m =>
      simp only [fallback_loop]
      rw [hdl]
      rfl
    | ok q =>
      obtain ⟨st, pm⟩ := q
      obtain ⟨ev, hevs, hsum⟩ := loop_cons_evs o ow url dest tl st pm hdl
      simp only [hasSummary] at ih ⊢
      rw [hevs]
      simp [List.any_cons, hsum, ih]

theorem fallback_phase_raised_eq (o : Oracles) (entries : List (String × String))
    (sp : List String) (ow : Bool) (evs : List Ev) (k s e : Nat) (m : String)
    (hfl : fallback_loop o ow entries = LoopRes.raised evs k s e m) :
    fallback_phase o entries sp ow = ⟨evs, 1, some m, e⟩ := by
  unfold fallback_phase
  rw [hfl]

theorem fallback_phase_done_eq (o : Oracles) (entries : List (String × String))
    (sp : List String) (ow : Bool) (evs : List Ev) (k s e : Nat)
    (hfl : fallback_loop o ow entries = LoopRes.done evs k s e) :
    fallback_phase o entries sp ow
      = if e ≠ 0 then
          ⟨evs ++ sp.map (fun p => Ev.out ("skipped " ++ p)), 1, none, e⟩
        else
          ⟨(evs ++ sp.map (fun p => Ev.out ("skipped " ++ p)))
             ++ [Ev.err ("Done: " ++ toString k ++ " downloaded, "
                  ++ toString (s + sp.length) ++ " skipped.")], 0, none, e⟩ := by
  unfold fallback_phase
  rw [hfl]

theorem fallback_phase_summary (o : Oracles) (entries : List (String × String))
    (sp : List String) (ow : Bool)
    (h : (fallback_phase o entries sp ow).raised = none) :
    ((fallback_phase o entries sp ow).er = 0 →
        hasSummary (fallback_phase o entries sp ow).events = true)
    ∧ ((fallback_phase o entries sp ow).er ≠ 0 →
        hasSummary (fallback_phase o entries sp ow).events = false
        ∧ (fallback_phase o entries sp ow).exit = 1) := by
  have hno := loop_evs_no_summary o ow entries
  cases hfl : fallback_loop o ow entries with
  | raised evs k s e m =>
    rw [fallback_phase_raised_eq o entries sp ow evs k s e m hfl] at h
    simp at h
  | done evs k s e =>
    rw [hfl] at hno
    simp only [LoopRes.evs] at hno
    rw [fallback_phase_done_eq o entries sp ow evs k s e hfl] at h ⊢
    by_cases he : e ≠ 0
    · rw [if_pos he] at h ⊢
      constructor
      · intro h0; exact absurd h0 he
      · intro _
        refine ⟨?_, rfl⟩
        show hasSummary (evs ++ sp.map (fun p => Ev.out ("skipped " ++ p))) = false
        rw [hasSummary_append, hno, mapSkippedNoSummary]
        rfl
    · rw [if_neg he] at h ⊢
      constructor
      · intro _
        show hasSummary ((evs ++ sp.map (fun p => Ev.out ("skipped " ++ p)))
            ++ [Ev.err ("Done: " ++ toString k ++ " downloaded, "
                 ++ toString (s + sp.length) ++ " skipped.")]) = true
        rw [hasSummary_append, hasSummary_append, hno, mapSkippedNoSummary]
        simp [hasSummary, doneSummary3]
      · intro h0
        exact absurd h0 he

theorem prepend_summary (pre : List Ev) (r : RunOut)
    (hpre : hasSummary pre = false) :
    hasSummary (prependEvents pre r).events = hasSummary r.events := by
  simp only [prependEvents]
  rw [hasSummary_append, hpre]
  rfl

/-! ### Claim C3 (amended) -/

/-- Claim C3 (amended): in every run that reaches the download phase and
is not cut short by an uncaught exception, the terminal summary line is
printed exactly when no entry ended in an error; when at least one entry
ended in an error, the process exits with status 1 without printing the
summary. -/
theorem c3_amended_holds (o : Oracles) (urls : List String) (base : String)
    (ow : Bool) (dflt : Option String) (np : Bool)
    (hnr : (runMain o urls base ow dflt np).raised = none)
    (hent : (resolve_all o (expanduser o.home base) ow dflt urls).1 ≠ []) :
    ((runMain o urls base ow dflt np).er = 0 →
        hasSummary (runMain o urls base ow dflt np).events = true)
    ∧ ((runMain o urls base ow dflt np).er ≠ 0 →
        hasSummary (runMain o urls base ow dflt np).events = false
        ∧ (runMain o urls base ow dflt np).exit = 1) := by
  simp only [runMain] at hnr ⊢
  cases hE : (resolve_all o (expanduser o.home base) ow dflt urls).1 with
  | nil => exact absurd hE hent
  | cons e es =>
    rw [hE] at hnr
    cases hpb : (if np then none else o.pget_bin) with
    | none =>
      rw [hpb] at hnr
      exact fallback_phase_summary o (e :: es) _ ow hnr
    | some pc =>
      rw [hpb] at hnr
      cases pc with
      | success =>
        constructor
        · intro _
          show hasSummary ((e :: es).map (fun x => Ev.out x.2)
              ++ [Ev.err (("Done: " ++ toString (e :: es).length) ++ " downloaded (pget)."),
                  Ev.unlinkManifest]) = true
          rw [hasSummary_append]
          have h2 : hasSummary
              [Ev.err (("Done: " ++ toString (e :: es).length) ++ " downloaded (pget)."),
               Ev.unlinkManifest] = true := by
            simp [hasSummary, doneSummary1]
          rw [h2]
          exact Bool.or_true _
        · intro h0
          exact absurd rfl h0
      | failure =>
        have hpre : hasSummary [Ev.unlinkManifest] = false := rfl
        have hs := fallback_phase_summary o (e :: es) _ ow hnr
        constructor
        · intro h0
          rw [prepend_summary _ _ hpre]
          exact hs.1 h0
        · intro h0
          have h2 := hs.2 h0
          refine ⟨?_, h2.2⟩
          rw [prepend_summary _ _ hpre]
          exact h2.1
      | exc m =>
        have hpre : hasSummary
            [Ev.err (("pget failed (" ++ m) ++ "); falling back to built-in download."),
             Ev.unlinkManifest] = false := by
          simp [hasSummary, pgetFailNoSummary, unlinkNoSummary]
        have hs := fallback_phase_summary o (e :: es) _ ow hnr
        constructor
        · intro h0
          rw [prepend_summary _ _ hpre]
          exact hs.1 h0
        · intro h0
          have h2 := hs.2 h0
          refine ⟨?_, h2.2⟩
          rw [prepend_summary _ _ hpre]
          exact h2.1

/-- Claim C3 amended, witness: a fallback run whose single entry
succeeds — no errors, and the summary line is printed. -/
theorem c3_amended_witness :
    hasSummary (runMain oPlain ["https://e/a.safetensors"]
      "/store" false none true).events = true :=
  (c3_amended_holds oPlain ["https://e/a.safetensors"] "/store" false none true
    (by decide) (by decide)).1 (by decide)

/-! ### List lemmas for the resolver proofs -/

theorem dropWhile_cons_neg (p : Char → Bool) (a : Char) (t : List Char)
    (h : p a = false) : (a :: t).dropWhile p = a :: t := by
  simp [List.dropWhile, h]

theorem takeWhile_cons_pos (p : Char → Bool) (a : Char) (t : List Char)
    (h : p a = true) : (a :: t).takeWhile p = a :: t.takeWhile p := by
  simp [List.takeWhile, h]

theorem takeWhile_cons_neg (p : Char → Bool) (a : Char) (t : List Char)
    (h : p a = false) : (a :: t).takeWhile p = [] := by
  simp [List.takeWhile, h]

theorem dropWhile_cons_pos (p : Char → Bool) (a : Char) (t : List Char)
    (h : p a = true) : (a :: t).dropWhile p = t.dropWhile p := by
  simp [List.dropWhile, h]

theorem takeWhile_all_append (p : Char → Bool) (l1 l2 : List Char)
    (h : ∀ c ∈ l1, p c = true) :
    (l1 ++ l2).takeWhile p = l1 ++ l2.takeWhile p := by
  induction l1 with
  | nil => rfl
  | cons a t ih =>
    rw [List.cons_append, takeWhile_cons_pos p a _ (h a (by simp)),
      ih (fun c hc => h c (by simp [hc])), List.cons_append]

theorem dropWhile_all_append (p : Char → Bool) (l1 l2 : List Char)
    (h : ∀ c ∈ l1, p c = true) :
    (l1 ++ l2).dropWhile p = l2.dropWhile p := by
  induction l1 with
  | nil => rfl
  | cons a t ih =>
    rw [List.cons_append, dropWhile_cons_pos p a _ (h a (by simp)),
      ih (fun c hc => h c (by simp [hc]))]

theorem dropWhile_all_neg (p : Char → Bool) (l : List Char)
    (h : ∀ c ∈ l, p c = false) : l.dropWhile p = l := by
  cases l with
  | nil => rfl
  | cons a t => exact dropWhile_cons_neg p a t (h a (by simp))

theorem dropWhile_eq_self_of_all_head (p : Char → Bool) (l1 l2 : List Char)
    (h1 : l1 ≠ []) (h : ∀ c ∈ l1, p c = false) :
    (l1 ++ l2).dropWhile p = l1 ++ l2 := by
  rcases l1 with _ | ⟨a, t⟩
  · exact absurd rfl h1
  · rw [List.cons_append]
    exact dropWhile_cons_neg p a _ (h a (by simp))

theorem strip_no_ws (l : List Char) (h : ∀ c ∈ l, isSpaceChar c = false) :
    pyStripL l = l := by
  unfold pyStripL
  rw [dropWhile_all_neg _ l h,
    dropWhile_all_neg _ l.reverse (fun c hc => h c (List.mem_reverse.mp hc)),
    List.reverse_reverse]

/-! ### Claim C10 -/

/-- Claim C10 (confirmed): the explicit category token of an input line
`"<url> <token>"` is matched case-insensitively — whenever the
lowercased token is a member of the category set, `resolve` uses the
lowercased token as the category, whatever the token's original case. -/
theorem c10_token_case_insensitive (url tok : String) (dflt : Option String)
    (hu : url.data ≠ []) (ht : tok.data ≠ [])
    (hu2 : ∀ c ∈ url.data, isSpaceChar c = false)
    (ht2 : ∀ c ∈ tok.data, isSpaceChar c = false)
    (hm : SUBFOLDERS.contains (pyLower tok) = true) :
    select_subfolder (url ++ " " ++ tok) dflt = (url, pyLower tok) := by
  have hd : (url ++ " " ++ tok).data = url.data ++ ' ' :: tok.data := by
    rw [strData, strData]
    simp
  have hsp : hasSpace (url ++ " " ++ tok) = true := by
    unfold hasSpace
    rw [hd]
    simp
  have hrev : (url.data ++ ' ' :: tok.data).reverse
      = tok.data.reverse ++ ' ' :: url.data.reverse := by
    simp
  have hstripL : pyStripL (url.data ++ ' ' :: tok.data)
      = url.data ++ ' ' :: tok.data := by
    unfold pyStripL
    rw [dropWhile_eq_self_of_all_head _ url.data (' ' :: tok.data) hu hu2, hrev,
      dropWhile_eq_self_of_all_head _ tok.data.reverse (' ' :: url.data.reverse)
        (by simpa using ht) (fun c hc => ht2 c (List.mem_reverse.mp hc)),
      ← hrev, List.reverse_reverse]
  have hstrip : pyStrip (url ++ " " ++ tok) = url ++ " " ++ tok := by
    unfold pyStrip
    rw [hd, hstripL, ← hd, strMkData]
  have hsplit : pySplitNone1 (url.data ++ ' ' :: tok.data) = (url.data, tok.data) := by
    unfold pySplitNone1
    rw [dropWhile_eq_self_of_all_head _ url.data (' ' :: tok.data) hu hu2]
    show ((url.data ++ ' ' :: tok.data).takeWhile (fun c => !isSpaceChar c),
      ((url.data ++ ' ' :: tok.data).dropWhile
        (fun c => !isSpaceChar c)).dropWhile isSpaceChar) = (url.data, tok.data)
    have hA : (url.data ++ ' ' :: tok.data).takeWhile (fun c => !isSpaceChar c)
        = url.data := by
      rw [takeWhile_all_append _ url.data _ (fun c hc => by simp [hu2 c hc]),
        takeWhile_cons_neg _ ' ' _ (by decide), List.append_nil]
    have hB : ((url.data ++ ' ' :: tok.data).dropWhile
          (fun c => !isSpaceChar c)).dropWhile isSpaceChar = tok.data := by
      rw [dropWhile_all_append _ url.data _ (fun c hc => by simp [hu2 c hc]),
        dropWhile_cons_neg (fun c => !isSpaceChar c) ' ' _ (by decide),
        dropWhile_cons_pos isSpaceChar ' ' _ (by decide),
        dropWhile_all_neg _ tok.data ht2]
    rw [hA, hB]
  have hstok : pyStrip tok = tok := by
    unfold pyStrip
    rw [strip_no_ws tok.data ht2, strMkData]
  have hm2 : pyLower tok ∈ SUBFOLDERS := List.mem_of_elem_eq_true hm
  simp only [select_subfolder]
  simp [hsp, hstrip, hd, hsplit, hstok, hm2, strMkData]

/-- Claim C10, witness: the token `LoRAs` (mixed case) is accepted and
the category `loras` is used. -/
theorem c10_witness :
    select_subfolder ("https://e/x.bin" ++ " " ++ "LoRAs") none
      = ("https://e/x.bin", pyLower "LoRAs")
    ∧ pyLower "LoRAs" = "loras" :=
  ⟨c10_token_case_insensitive "https://e/x.bin" "LoRAs" none
     (by decide) (by decide) (by decide) (by decide) (by decide),
   by decide⟩

/-! ### Path lemmas for claim C7 -/

theorem expanduser_id (home p : String) (h : p.data.head? ≠ some '~') :
    expanduser home p = p := by
  unfold expanduser
  rw [if_neg h]

theorem join_normal (a b : String) (ha : a.data ≠ [])
    (hal : a.data.getLast? ≠ some '/') (hbh : b.data.head? ≠ some '/') :
    path_join a b = (a ++ "/") ++ b := by
  unfold path_join
  rw [if_neg hbh, if_neg (not_or.mpr ⟨ha, hal⟩)]

theorem ne_nil_of_head (l : List Char) (c : Char) (h : l.head? = some c) :
    l ≠ [] := by
  intro hc
  rw [hc] at h
  cases h

theorem strCatNeNil (a b : String) (hb : b.data ≠ []) : (a ++ b).data ≠ [] := by
  rw [strData]
  intro hc
  exact hb (List.append_eq_nil.mp hc).2

theorem head_ne_of_not_contains (l : List Char) (c : Char)
    (h : l.contains c = false) : l.head? ≠ some c := by
  intro hh
  cases l with
  | nil => cases hh
  | cons a t =>
    have ha : a = c := by injection hh
    rw [ha] at h
    simp at h

theorem base_models_getLast (base : String) :
    ((base ++ "/") ++ "models").data.getLast? = some 's' := by
  rw [strData, strData]
  have hms : ("models" : String).data = 'm' :: ['o', 'd', 'e', 'l', 's'] := rfl
  rw [hms, List.getLast?_append_cons]
  rfl

theorem stage_getLast (x sub : String) (hsne : sub.data ≠ []) :
    ((x ++ "/") ++ sub).data.getLast? = sub.data.getLast? := by
  rw [strData]
  exact List.getLast?_append_of_ne_nil _ hsne

theorem subfolders_ok : ∀ s ∈ SUBFOLDERS,
    s.data ≠ [] ∧ s.data.head? ≠ some '/' ∧ s.data.getLast? ≠ some '/' := by
  decide

theorem infer_subfolder_mem (s : String) : infer_subfolder s ∈ SUBFOLDERS := by
  show (match SUBFOLDER_HINTS.find? (fun h => hintMatches h.1 (pyLower s).data) with
    | some h => h.2
    | none => "checkpoints") ∈ SUBFOLDERS
  cases hf : SUBFOLDER_HINTS.find? (fun h => hintMatches h.1 (pyLower s).data) with
  | none => decide
  | some h =>
    have hmem := List.mem_of_find?_eq_some hf
    have hall : ∀ x ∈ SUBFOLDER_HINTS, x.2 ∈ SUBFOLDERS := by decide
    exact hall h hmem

theorem default_subfolder_mem (d : Option String) :
    (match d with
      | some dd => if SUBFOLDERS.contains dd then dd else "checkpoints"
      | none => "checkpoints") ∈ SUBFOLDERS := by
  cases d with
  | none => decide
  | some dd =>
    show (if SUBFOLDERS.contains dd = true then dd else "checkpoints") ∈ SUBFOLDERS
    by_cases hc : SUBFOLDERS.contains dd = true
    · rw [if_pos hc]
      exact List.mem_of_elem_eq_true hc
    · rw [if_neg hc]
      decide

theorem select_subfolder_mem (u : String) (d : Option String) :
    (select_subfolder u d).2 ∈ SUBFOLDERS := by
  have hck : ("checkpoints" : String) ∈ SUBFOLDERS := by decide
  unfold select_subfolder
  by_cases hs : hasSpace u
  · simp only [hs, if_true]
    cases hc : SUBFOLDERS.contains
        (pyLower (pyStrip (String.mk (pySplitNone1 (pyStrip u).data).2))) with
    | true =>
      simp [hc]
      exact List.mem_of_elem_eq_true hc
    | false =>
      cases d with
      | none => simpa [hc] using hck
      | some dd =>
        by_cases hdd : dd ∈ SUBFOLDERS
        · simp [hc, hdd]
        · simpa [hc, hdd] using hck
  · simp only [hs, if_false, Bool.false_eq_true]
    cases d with
    | none => simpa using infer_subfolder_mem u
    | some dd =>
      by_cases hdd : dd ∈ SUBFOLDERS
      · have hne : dd ≠ "" := by
          intro he
          rw [he] at hdd
          exact absurd hdd (by decide)
        simp [hdd, hne]
      · simpa [hdd] using infer_subfolder_mem u

/-! ### Claim C7 (amended) -/

/-- Claim C7 (amended): for every resolved entry whose decoded filename
contains no slash, given a store root that is absolute, has no trailing
slash and no leading `~`, the destination path is exactly
`<store_root>/models/<category>/<filename>`, and the category is always
a member of the fixed subfolder set.  (A percent-encoded slash in the
URL's last path segment can produce a filename containing `/` — even an
absolute one that replaces the whole path — which is why the no-slash
hypothesis is needed.) -/
theorem c7_amended_holds (isfile : String → Bool) (home raw base : String)
    (ow : Bool) (dflt : Option String)
    (h1 : pyStrip raw ≠ "")
    (h2 : (pyStrip raw).data.head? ≠ some '#')
    (hb0 : base.data.head? = some '/')
    (hbe : base.data.getLast? ≠ some '/')
    (hname : (derive_name (select_subfolder (pyStrip raw) dflt).1).data.contains '/'
      = false) :
    (resolve_url_dest isfile home raw base ow dflt).2.1
      = some ((((((base ++ "/") ++ "models") ++ "/")
            ++ (select_subfolder (pyStrip raw) dflt).2) ++ "/")
          ++ derive_name (select_subfolder (pyStrip raw) dflt).1)
    ∧ (select_subfolder (pyStrip raw) dflt).2 ∈ SUBFOLDERS := by
  refine ⟨?_, select_subfolder_mem (pyStrip raw) dflt⟩
  have hexp : expanduser home base = base := by
    refine expanduser_id home base ?_
    rw [hb0]
    decide
  have hsub := select_subfolder_mem (pyStrip raw) dflt
  obtain ⟨hsne, hshead, hslast⟩ := subfolders_ok _ hsub
  have hj1 : path_join base "models" = (base ++ "/") ++ "models" :=
    join_normal base "models" (ne_nil_of_head _ _ hb0) hbe (by decide)
  have hj2 : path_join ((base ++ "/") ++ "models")
      (select_subfolder (pyStrip raw) dflt).2
      = ((((base ++ "/") ++ "models") ++ "/")
          ++ (select_subfolder (pyStrip raw) dflt).2) := by
    refine join_normal _ _ ?_ ?_ hshead
    · exact strCatNeNil _ _ (by decide)
    · rw [base_models_getLast]
      decide
  have hj3 : path_join ((((base ++ "/") ++ "models") ++ "/")
        ++ (select_subfolder (pyStrip raw) dflt).2)
      (derive_name (select_subfolder (pyStrip raw) dflt).1)
      = ((((((base ++ "/") ++ "models") ++ "/")
            ++ (select_subfolder (pyStrip raw) dflt).2) ++ "/")
          ++ derive_name (select_subfolder (pyStrip raw) dflt).1) := by
    refine join_normal _ _ (strCatNeNil _ _ hsne) ?_
      (head_ne_of_not_contains _ _ hname)
    rw [stage_getLast _ _ hsne]
    exact hslast
  simp only [resolve_url_dest]
  rw [if_neg (not_or.mpr ⟨h1, h2⟩), hexp, hj1, hj2, hj3]
  by_cases hio : (isfile ((((((base ++ "/") ++ "models") ++ "/")
        ++ (select_subfolder (pyStrip raw) dflt).2) ++ "/")
      ++ derive_name (select_subfolder (pyStrip raw) dflt).1) && !ow) = true
  · rw [if_pos hio]
  · rw [if_neg hio]

/-- Claim C7 amended, witness: the spec scenario line
`"https://example.com/models/my_lora.safetensors loras"` with store root
`/store` resolves to `/store/models/loras/my_lora.safetensors`. -/
theorem c7_amended_witness :
    (resolve_url_dest noFile "/root"
        "https://example.com/models/my_lora.safetensors loras"
        "/store" false none).2.1
      = some "/store/models/loras/my_lora.safetensors" :=
  ((c7_amended_holds noFile "/root"
      "https://example.com/models/my_lora.safetensors loras"
      "/store" false none (by decide) (by decide) (by decide) (by decide)
      (by decide)).1).trans (by decide)

end ComfyDL
